import Mathlib

/-!
Shallow embedding of `src/labelmaker/labelmaker.py` (the `LabelMaker` class):
a manual video-frame labelling loop.  The video backend (`cv2.VideoCapture`)
is modelled as a position in a fixed-length frame stream; the pandas label
DataFrame is modelled as an association list from integer frame index to a
row with the fixed columns of `COLUMNS`, with pandas `.loc` enlargement
semantics (setting a cell at a missing row label appends a fresh row).
-/

namespace LabelMakerModel

/-- `MODES` from the source: the four mode column prefixes, in click order. -/
def MODES : List String := ["HA", "HP", "VA", "VP"]

/-- `COLUMNS` from the source: the value columns of the label table. -/
def COLUMNS : List String :=
  ["presented", "label", "HAx", "HAy", "HPx", "HPy", "VAx", "VAy", "VPx", "VPy"]

/-- One row of the label DataFrame: a nullable integer per column of
`COLUMNS`.  Cells are `none` until written. -/
structure Row where
  presented : Option Int
  label : Option Int
  HAx : Option Int
  HAy : Option Int
  HPx : Option Int
  HPy : Option Int
  VAx : Option Int
  VAy : Option Int
  VPx : Option Int
  VPy : Option Int
deriving DecidableEq, Repr

/-- A fully empty row (all cells NaN), as pandas creates on `.loc`
enlargement. -/
def Row.blank : Row :=
  { presented := none, label := none, HAx := none, HAy := none,
    HPx := none, HPy := none, VAx := none, VAy := none,
    VPx := none, VPy := none }

/-- Read the cell of column `c`; unknown column names read as `none`. -/
def Row.getCol (r : Row) (c : String) : Option Int :=
  if c = "presented" then r.presented
  else if c = "label" then r.label
  else if c = "HAx" then r.HAx
  else if c = "HAy" then r.HAy
  else if c = "HPx" then r.HPx
  else if c = "HPy" then r.HPy
  else if c = "VAx" then r.VAx
  else if c = "VAy" then r.VAy
  else if c = "VPx" then r.VPx
  else if c = "VPy" then r.VPy
  else none

/-- Write the cell of column `c`; unknown column names write nothing. -/
def Row.setCol (r : Row) (c : String) (v : Int) : Row :=
  if c = "presented" then { r with presented := some v }
  else if c = "label" then { r with label := some v }
  else if c = "HAx" then { r with HAx := some v }
  else if c = "HAy" then { r with HAy := some v }
  else if c = "HPx" then { r with HPx := some v }
  else if c = "HPy" then { r with HPy := some v }
  else if c = "VAx" then { r with VAx := some v }
  else if c = "VAy" then { r with VAy := some v }
  else if c = "VPx" then { r with VPx := some v }
  else if c = "VPy" then { r with VPy := some v }
  else r

/-- The label table: rows keyed by frame index, in index order. -/
abbrev Labels : Type := List (Int × Row)

/-- `labels.loc[k, c] = v` with pandas semantics: update the row labelled
`k` in place if present, otherwise append a fresh row labelled `k`
(enlargement). -/
def locSet (L : Labels) (k : Int) (c : String) (v : Int) : Labels :=
  match L with
  | [] => [(k, Row.blank.setCol c v)]
  | (k0, r) :: t =>
      if k0 = k then (k0, r.setCol c v) :: t
      else (k0, r) :: locSet t k c v

/-- `labels.loc[k, c]` as a read: the cell of the first row labelled `k`,
`none` when no such row exists. -/
def getCell (L : Labels) (k : Int) (c : String) : Option Int :=
  match L with
  | [] => none
  | (k0, r) :: t => if k0 = k then r.getCol c else getCell t k c

/-- The `cv2.VideoCapture` backend, reduced to what the program observes:
a total frame count and the current 0-based stream position
(`CAP_PROP_POS_FRAMES`). -/
structure Capture where
  num_frames : Nat
  pos : Nat
deriving DecidableEq, Repr

/-- `capture.read()`: decode the frame at the current position and advance,
or fail (end of stream) leaving the position unchanged.  The decoded image
is identified by the 0-based index of the frame it shows. -/
def Capture.read (cap : Capture) : Option Nat × Capture :=
  if cap.pos < cap.num_frames then (some cap.pos, ⟨cap.num_frames, cap.pos + 1⟩)
  else (none, cap)

/-- `capture.set(CAP_PROP_POS_FRAMES, p)` for a nonnegative target. -/
def Capture.setPos (cap : Capture) (p : Int) : Capture :=
  ⟨cap.num_frames, p.toNat⟩

/-- `for _ in range(n): capture.read()` — read and discard `n` frames. -/
def skipReads : Nat → Capture → Capture
  | 0, cap => cap
  | n + 1, cap => skipReads n (cap.read).2

/-- The mutable state of a `LabelMaker` instance (display handles, progress
bar and timing omitted). -/
structure LM where
  cap : Capture
  frame : Option Nat
  frame_id : Option Int
  labels : Labels
  alive : Bool
  pressed_key : Int
  frame_skip : Int
  mode : Int
  force_mode : Option Int
deriving DecidableEq, Repr

/-- `self.mode = self.force_mode if self.force_mode else 0` — Python
truthiness: both `None` and `0` select `0`. -/
def modeReset (fm : Option Int) : Int :=
  match fm with
  | some k => if k = 0 then 0 else k
  | none => 0

/-- The tail of `grab` after the stream has been repositioned to `cap1`:
read the next frame, record `frame_id` from the post-read position,
mark `presented` on success, raise `IOError` if the very first read fails,
and reset the mode cursor. -/
def grabCore (s : LM) (cap1 : Capture) : Except String LM :=
  match cap1.read with
  | (some f, cap2) =>
      .ok { s with
            cap := cap2,
            frame := some f,
            frame_id := some (cap2.pos : Int),
            labels := locSet s.labels (cap2.pos : Int) "presented" 1,
            mode := modeReset s.force_mode }
  | (none, cap2) =>
      if s.frame = none then .error "Frame acquisition failed"
      else
        .ok { s with
              cap := cap2,
              frame_id := some (cap2.pos : Int),
              mode := modeReset s.force_mode }

/-- `grab()` with neither argument: skip `frame_skip` frames, then read. -/
def grabNext (s : LM) : Except String LM :=
  grabCore s (skipReads s.frame_skip.toNat s.cap)

/-- `grab(relative=r)`: reposition to `max(0, frame_id + r)`, then read.
(`frame_id` is always set before any relative grab can occur; `getD 0`
stands for the unreachable uninitialised case.) -/
def grabRel (s : LM) (r : Int) : Except String LM :=
  grabCore s (s.cap.setPos (max 0 (s.frame_id.getD 0 + r)))

/-- `grab(absolute=a)`: reposition to `max(0, a)`, then read. -/
def grabAbs (s : LM) (a : Int) : Except String LM :=
  grabCore s (s.cap.setPos (max 0 a))

/-- `quit()` as far as session state is concerned: clear the alive flag
(the CSV write is modelled separately by `to_csv`). -/
def quitLM (s : LM) : LM :=
  { s with alive := false }

/-- `process_key`: ignore no-key (`-1`), record the key, quit on Esc/`q`
(27/113), advance on `.` (46), seek back on `,` (44). -/
def process_key (s : LM) (key : Int) : Except String LM :=
  if key < 0 then .ok s
  else if key = 27 ∨ key = 113 then .ok (quitLM { s with pressed_key := key })
  else if key = 46 then grabNext { s with pressed_key := key }
  else if key = 44 then grabRel { s with pressed_key := key } (-s.frame_skip - 2)
  else .ok { s with pressed_key := key }

/-- Python list indexing `l[i]`, including negative wraparound. -/
def pyIdx (l : List String) (i : Int) : Option String :=
  if 0 ≤ i then l.get? i.toNat
  else if 0 ≤ i + l.length then l.get? (i + l.length).toNat
  else none

/-- `process_mouse_event` on `EVENT_LBUTTONDOWN`, the state-update part:
write `(x, y)` into the current mode's coordinate columns at the current
frame id and advance the mode cursor.  `click` below then grabs the next
frame when the cursor has run past the last mode or a forced mode is
configured; `MODES[self.mode]` with an out-of-range cursor is the Python
`IndexError`. -/
def clickState (s : LM) (x y : Int) (m : String) : LM :=
  { s with
    labels := locSet (locSet s.labels (s.frame_id.getD 0) (m ++ "x") x)
                     (s.frame_id.getD 0) (m ++ "y") y,
    mode := s.mode + 1 }

/-- `process_mouse_event` proper: dispatch on the current mode name. -/
def click (s : LM) (x y : Int) : Except String LM :=
  match pyIdx MODES s.mode with
  | none => .error "IndexError"
  | some m =>
      if (MODES.length : Int) ≤ (clickState s x y m).mode ∨ s.force_mode ≠ none then
        grabNext (clickState s x y m)
      else .ok (clickState s x y m)

/-- The initial row of a freshly created table: all cells NaN, then the
whole `presented` column set to `0`. -/
def initRow : Row :=
  { presented := some 0, label := none, HAx := none, HAy := none,
    HPx := none, HPy := none, VAx := none, VAy := none,
    VPx := none, VPy := none }

/-- `pd.DataFrame(index=range(num_frames), columns=COLUMNS)` followed by
`labels['presented'] = 0`. -/
def initLabels (n : Nat) : Labels :=
  (List.range n).map (fun (i : Nat) => ((i : Int), initRow))

/-- The constructor (no resume file): fresh capture at position 0, no frame
decoded yet, empty table of `n` rows, mode pinned to the forced mode when
one is configured. -/
def initLM (n : Nat) (sk : Int) (fm : Option Int) : LM :=
  { cap := ⟨n, 0⟩,
    frame := none,
    frame_id := none,
    labels := initLabels n,
    alive := true,
    pressed_key := -1,
    frame_skip := sk,
    mode := fm.getD 0,
    force_mode := fm }

/-- `loop`'s first action: `self.grab(absolute=0)`. -/
def startupLM (n : Nat) (sk : Int) (fm : Option Int) : Except String LM :=
  grabAbs (initLM n sk fm) 0

/-- One user input event, as dispatched by a loop tick. -/
inductive Ev where
  | key : Int → Ev
  | click : Int → Int → Ev
deriving DecidableEq, Repr

/-- Dispatch one event; the loop polls only while `alive`. -/
def step (s : LM) : Ev → Except String LM
  | .key k => if s.alive then process_key s k else .ok s
  | .click x y => if s.alive then click s x y else .ok s

/-- Run a sequence of events, propagating exceptions. -/
def run (s : LM) : List Ev → Except String LM
  | [] => .ok s
  | e :: es =>
      match step s e with
      | .ok t => run t es
      | .error msg => .error msg

/-- Cell read through an `Except`-wrapped state (`none` on error). -/
def cellOfE (e : Except String LM) (k : Int) (c : String) : Option Int :=
  match e with
  | .ok s => getCell s.labels k c
  | .error _ => none

/-- Mode cursor through an `Except`-wrapped state. -/
def modeOfE (e : Except String LM) : Option Int :=
  match e with
  | .ok s => some s.mode
  | .error _ => none

/-- Frame id through an `Except`-wrapped state. -/
def frameIdOfE (e : Except String LM) : Option Int :=
  match e with
  | .ok s => s.frame_id
  | .error _ => none

/-- Held frame image through an `Except`-wrapped state. -/
def frameOfE (e : Except String LM) : Option Nat :=
  match e with
  | .ok s => s.frame
  | .error _ => none

/-- Whether an `Except`-wrapped state is a success. -/
def isOkE (e : Except String LM) : Bool :=
  match e with
  | .ok _ => true
  | .error _ => false

/-- Table row count through an `Except`-wrapped state (`0` on error). -/
def rowCountE (e : Except String LM) : Nat :=
  match e with
  | .ok s => s.labels.length
  | .error _ => 0


theorem getCol_blank (c : String) : Row.blank.getCol c = none := by
  unfold Row.getCol Row.blank
  split_ifs <;> rfl

theorem getCol_setCol (r : Row) (c c2 : String) (v : Int)
    (hc : c ∈ COLUMNS) (hc2 : c2 ∈ COLUMNS) :
    (r.setCol c v).getCol c2 = if c2 = c then some v else r.getCol c2 := by
  simp only [COLUMNS, List.mem_cons, List.not_mem_nil, or_false] at hc hc2
  rcases hc with rfl | rfl | rfl | rfl | rfl | rfl | rfl | rfl | rfl | rfl <;>
    rcases hc2 with rfl | rfl | rfl | rfl | rfl | rfl | rfl | rfl | rfl | rfl <;>
      rfl

theorem getCell_locSet (L : Labels) (k : Int) (c : String) (v : Int) (k2 : Int) (c2 : String)
    (hc : c ∈ COLUMNS) (hc2 : c2 ∈ COLUMNS) :
    getCell (locSet L k c v) k2 c2 =
      if k2 = k ∧ c2 = c then some v else getCell L k2 c2 := by
  induction L with
  | nil =>
      by_cases hk : k = k2
      · subst hk
        simp [locSet, getCell, getCol_setCol _ _ _ _ hc hc2, getCol_blank]
      · have hk2 : ¬ k2 = k := fun h => hk h.symm
        simp [locSet, getCell, hk, hk2]
  | cons p t ih =>
      obtain ⟨k0, r⟩ := p
      by_cases hk0 : k0 = k
      · subst hk0
        by_cases hk2 : k0 = k2
        · subst hk2
          simp [locSet, getCell, getCol_setCol _ _ _ _ hc hc2]
        · have hk2s : ¬ k2 = k0 := fun h => hk2 h.symm
          simp [locSet, getCell, hk2, hk2s]
      · by_cases hk2 : k0 = k2
        · subst hk2
          have : ¬ (k0 = k ∧ c2 = c) := fun h => hk0 h.1
          simp [locSet, getCell, hk0, this]
        · simp [locSet, getCell, hk0, hk2, ih]

theorem locSet_keys_mem (L : Labels) (k : Int) (c : String) (v : Int)
    (h : k ∈ L.map Prod.fst) :
    (locSet L k c v).map Prod.fst = L.map Prod.fst := by
  induction L with
  | nil => simp at h
  | cons p t ih =>
      obtain ⟨k0, r⟩ := p
      by_cases hk : k0 = k
      · simp [locSet, hk]
      · simp only [List.map_cons, List.mem_cons] at h
        rcases h with h | h
        · exact absurd h.symm hk
        · simp [locSet, hk, ih h]

theorem locSet_keys_not_mem (L : Labels) (k : Int) (c : String) (v : Int)
    (h : k ∉ L.map Prod.fst) :
    (locSet L k c v).map Prod.fst = L.map Prod.fst ++ [k] := by
  induction L with
  | nil => simp [locSet]
  | cons p t ih =>
      obtain ⟨k0, r⟩ := p
      simp only [List.map_cons, List.mem_cons, not_or] at h
      have hne : ¬ (k0 = k) := fun hh => h.1 hh.symm
      simp [locSet, hne, ih h.2]

theorem skipReads_min (n : Nat) (cap : Capture) (h : cap.pos ≤ cap.num_frames) :
    skipReads n cap = ⟨cap.num_frames, min (cap.pos + n) cap.num_frames⟩ := by
  induction n generalizing cap with
  | zero =>
      simp [skipReads, Nat.min_eq_left h]
  | succ n ih =>
      simp only [skipReads, Capture.read]
      by_cases hlt : cap.pos < cap.num_frames
      · rw [if_pos hlt]
        rw [ih ⟨cap.num_frames, cap.pos + 1⟩ hlt]
        dsimp only
        congr 1
        omega
      · rw [if_neg hlt]
        rw [ih cap h]
        congr 1
        omega

theorem grabCore_read_ok (s : LM) (cap1 : Capture) (h : cap1.pos < cap1.num_frames) :
    grabCore s cap1 =
      .ok { s with
            cap := ⟨cap1.num_frames, cap1.pos + 1⟩,
            frame := some cap1.pos,
            frame_id := some ((cap1.pos + 1 : Nat) : Int),
            labels := locSet s.labels ((cap1.pos + 1 : Nat) : Int) "presented" 1,
            mode := modeReset s.force_mode } := by
  simp [grabCore, Capture.read, h]

theorem grabCore_read_fail (s : LM) (cap1 : Capture) (h : ¬ cap1.pos < cap1.num_frames)
    (hf : s.frame ≠ none) :
    grabCore s cap1 =
      .ok { s with
            cap := cap1,
            frame_id := some ((cap1.pos : Nat) : Int),
            mode := modeReset s.force_mode } := by
  simp [grabCore, Capture.read, h, hf]

theorem grabCore_read_fail_none (s : LM) (cap1 : Capture) (h : ¬ cap1.pos < cap1.num_frames)
    (hf : s.frame = none) :
    grabCore s cap1 = .error "Frame acquisition failed" := by
  simp [grabCore, Capture.read, h, hf]


theorem click_eq (s : LM) (x y : Int) (m : String) (hm : pyIdx MODES s.mode = some m) :
    click s x y =
      if (MODES.length : Int) ≤ s.mode + 1 ∨ s.force_mode ≠ none then
        grabNext (clickState s x y m)
      else .ok (clickState s x y m) := by
  simp only [click, hm, clickState]

/-- The state produced by a successful plain `grab()`. -/
def advState (s : LM) : LM :=
  { s with
    cap := ⟨s.cap.num_frames, s.cap.pos + s.frame_skip.toNat + 1⟩,
    frame := some (s.cap.pos + s.frame_skip.toNat),
    frame_id := some ((s.cap.pos + s.frame_skip.toNat + 1 : Nat) : Int),
    labels := locSet s.labels ((s.cap.pos + s.frame_skip.toNat + 1 : Nat) : Int) "presented" 1,
    mode := modeReset s.force_mode }

theorem grabNext_ok (s : LM) (h : s.cap.pos + s.frame_skip.toNat < s.cap.num_frames) :
    grabNext s = .ok (advState s) := by
  unfold grabNext
  rw [skipReads_min _ _ (by omega)]
  rw [grabCore_read_ok _ _ (by dsimp only; omega)]
  unfold advState
  congr 2 <;> dsimp only <;> congr 1 <;> omega

theorem grabNext_eos (s : LM) (h : s.cap.num_frames ≤ s.cap.pos + s.frame_skip.toNat)
    (h2 : s.cap.pos ≤ s.cap.num_frames) (hf : s.frame ≠ none) :
    grabNext s =
      .ok { s with
            cap := ⟨s.cap.num_frames, s.cap.num_frames⟩,
            frame_id := some ((s.cap.num_frames : Nat) : Int),
            mode := modeReset s.force_mode } := by
  unfold grabNext
  rw [skipReads_min _ _ h2]
  rw [grabCore_read_fail _ _ (by dsimp only; omega) hf]
  congr 2 <;> dsimp only <;> congr 1 <;> omega

theorem step_key (s : LM) (k : Int) :
    step s (.key k) = if s.alive then process_key s k else .ok s := rfl

theorem step_click (s : LM) (x y : Int) :
    step s (.click x y) = if s.alive then click s x y else .ok s := rfl

theorem run_nil (s : LM) : run s [] = .ok s := rfl

theorem run_cons_ok (s t : LM) (e : Ev) (es : List Ev) (h : step s e = .ok t) :
    run s (e :: es) = run t es := by
  simp [run, h]

theorem getCell_locSet_ne_key (L : Labels) (k : Int) (c : String) (v : Int)
    (k2 : Int) (c2 : String) (h : ¬ k2 = k) :
    getCell (locSet L k c v) k2 c2 = getCell L k2 c2 := by
  induction L with
  | nil =>
      have : ¬ k = k2 := fun hh => h hh.symm
      simp [locSet, getCell, this]
  | cons p t ih =>
      obtain ⟨k0, r⟩ := p
      by_cases hk0 : k0 = k
      · subst hk0
        have : ¬ k0 = k2 := fun hh => h hh.symm
        simp [locSet, getCell, this]
      · by_cases hk2 : k0 = k2 <;> simp [locSet, getCell, hk0, hk2, h, ih]

theorem getCell_append (A B : Labels) (k : Int) (c : String) :
    getCell (A ++ B) k c =
      if k ∈ A.map Prod.fst then getCell A k c else getCell B k c := by
  induction A with
  | nil => simp [getCell]
  | cons p t ih =>
      obtain ⟨k0, r⟩ := p
      by_cases hk : k0 = k
      · subst hk
        simp [getCell]
      · have hne : ¬ k = k0 := fun hh => hk hh.symm
        have hL : getCell (((k0, r) :: t) ++ B) k c = getCell (t ++ B) k c := by
          simp [getCell, hk]
        have hR : getCell ((k0, r) :: t) k c = getCell t k c := by
          simp [getCell, hk]
        rw [hL, ih, hR]
        by_cases hm2 : k ∈ List.map Prod.fst t
        · rw [if_pos hm2, if_pos (by simp [List.map_cons, List.mem_cons, hm2])]
        · rw [if_neg hm2, if_neg (by simp [List.map_cons, List.mem_cons, hne, hm2])]


/-- The row keys `0, 1, ..., n-1` as integers. -/
def idxKeys (n : Nat) : List Int := (List.range n).map (fun (i : Nat) => (i : Int))

theorem mem_idxKeys (n : Nat) (k : Int) : k ∈ idxKeys n ↔ 0 ≤ k ∧ k < (n : Int) := by
  unfold idxKeys
  rw [List.mem_map]
  constructor
  · rintro ⟨i, hi, rfl⟩
    rw [List.mem_range] at hi
    omega
  · rintro ⟨h0, h1⟩
    exact ⟨k.toNat, List.mem_range.mpr (by omega), by omega⟩

theorem idxKeys_succ (n : Nat) : idxKeys (n + 1) = idxKeys n ++ [(n : Int)] := by
  simp [idxKeys, List.range_succ]

/-- The key shape reachable tables can have: one row per frame index, with
possibly one extra appended row at index `n` (the off-by-one `presented`
mark on the final frame). -/
def keysOK (n : Nat) (L : Labels) : Prop :=
  L.map Prod.fst = idxKeys n ∨ L.map Prod.fst = idxKeys (n + 1)

theorem keysOK_locSet (n : Nat) (L : Labels) (k : Int) (c : String) (v : Int)
    (h1 : 1 ≤ k) (h2 : k ≤ (n : Int)) (h : keysOK n L) :
    keysOK n (locSet L k c v) := by
  rcases h with h | h
  · by_cases hk : k < (n : Int)
    · left
      rw [locSet_keys_mem _ _ _ _ (by rw [h]; exact (mem_idxKeys n k).mpr ⟨by omega, hk⟩)]
      exact h
    · right
      rw [locSet_keys_not_mem _ _ _ _
            (by rw [h]; intro hm; exact hk ((mem_idxKeys n k).mp hm).2)]
      rw [h, idxKeys_succ]
      have hkn : k = (n : Int) := by omega
      rw [hkn]
  · right
    rw [locSet_keys_mem _ _ _ _
          (by rw [h]; exact (mem_idxKeys (n + 1) k).mpr ⟨by omega, by push_cast; omega⟩)]
    exact h

theorem initLabels_keys (n : Nat) : (initLabels n).map Prod.fst = idxKeys n := by
  unfold initLabels idxKeys
  rw [List.map_map]
  rfl

theorem initLabels_succ (n : Nat) :
    initLabels (n + 1) = initLabels n ++ [((n : Int), initRow)] := by
  simp [initLabels, List.range_succ]

theorem getCell_initLabels (n : Nat) (k : Int) (c : String)
    (h0 : 0 ≤ k) (h1 : k < (n : Int)) :
    getCell (initLabels n) k c = initRow.getCol c := by
  induction n with
  | zero => exact absurd h1 (by omega)
  | succ n ih =>
      rw [initLabels_succ, getCell_append]
      by_cases hk : k < (n : Int)
      · rw [if_pos (by rw [initLabels_keys]; exact (mem_idxKeys n k).mpr ⟨h0, hk⟩)]
        exact ih hk
      · rw [if_neg (by rw [initLabels_keys]; intro hm; exact hk ((mem_idxKeys n k).mp hm).2)]
        have hkn : k = (n : Int) := by push_cast at h1; omega
        simp [getCell, hkn]

/-- A forced mode value the mode-cursor invariant can survive: absent, or a
valid index into `MODES`. -/
def forceOK : Option Int → Prop
  | none => True
  | some k => 0 ≤ k ∧ k < 4

theorem modeReset_ok (fm : Option Int) (h : forceOK fm) :
    0 ≤ modeReset fm ∧ modeReset fm < 4 := by
  cases fm with
  | none => simp [modeReset]
  | some k =>
      simp only [forceOK] at h
      by_cases hk : k = 0 <;> simp only [modeReset, hk, if_true, if_false] <;> omega

/-- The structural part of the reachable-state invariant, relative to the
session's fixed frame count `N` and configured forced mode `FM`: stream
position in range and at least one frame past, `frame_id` mirrors the
stream position, a frame image is held, the table keys have the creation
shape (possibly plus the appended final row), row 0's `presented` flag is
still `0`, and the skip count is nonnegative. -/
structure CoreInv (N : Nat) (FM : Option Int) (s : LM) : Prop where
  num : s.cap.num_frames = N
  force : s.force_mode = FM
  pos_ge : 1 ≤ s.cap.pos
  pos_le : s.cap.pos ≤ s.cap.num_frames
  fid : s.frame_id = some ((s.cap.pos : Nat) : Int)
  frame_some : s.frame ≠ none
  keys : keysOK N s.labels
  row0 : getCell s.labels 0 "presented" = some 0
  skip_nonneg : 0 ≤ s.frame_skip

/-- The full reachable-state invariant: the structural part, plus mode
validity whenever the configured forced mode is itself valid. -/
def Inv (N : Nat) (FM : Option Int) (s : LM) : Prop :=
  CoreInv N FM s ∧ (forceOK FM → 0 ≤ s.mode ∧ s.mode < 4)

theorem CoreInv_clickState (N : Nat) (FM : Option Int) (s : LM) (x y : Int) (m : String)
    (hc : CoreInv N FM s) : CoreInv N FM (clickState s x y m) := by
  have hfid : s.frame_id.getD 0 = ((s.cap.pos : Nat) : Int) := by rw [hc.fid]; rfl
  have hge := hc.pos_ge
  have hle := hc.pos_le
  have hnum := hc.num
  refine ⟨hc.num, hc.force, hc.pos_ge, hc.pos_le, hc.fid, hc.frame_some, ?_, ?_,
    hc.skip_nonneg⟩
  · show keysOK N
      (locSet (locSet s.labels (s.frame_id.getD 0) (m ++ "x") x) (s.frame_id.getD 0) (m ++ "y") y)
    rw [hfid]
    exact keysOK_locSet _ _ _ _ _ (by omega) (by omega)
      (keysOK_locSet _ _ _ _ _ (by omega) (by omega) hc.keys)
  · show getCell
      (locSet (locSet s.labels (s.frame_id.getD 0) (m ++ "x") x) (s.frame_id.getD 0) (m ++ "y") y)
      0 "presented" = some 0
    rw [hfid]
    rw [getCell_locSet_ne_key _ _ _ _ _ _ (by omega)]
    rw [getCell_locSet_ne_key _ _ _ _ _ _ (by omega)]
    exact hc.row0

theorem Inv_grabCore (N : Nat) (FM : Option Int) (s : LM) (cap1 : Capture)
    (hc : CoreInv N FM s)
    (hn : cap1.num_frames = s.cap.num_frames) (hp : cap1.pos ≤ cap1.num_frames)
    (t : LM) (ht : grabCore s cap1 = .ok t) : Inv N FM t := by
  have hge := hc.pos_ge
  have hle := hc.pos_le
  have hnum := hc.num
  by_cases hlt : cap1.pos < cap1.num_frames
  · rw [grabCore_read_ok s cap1 hlt] at ht
    simp only [Except.ok.injEq] at ht
    subst ht
    refine ⟨⟨?_, hc.force, ?_, ?_, rfl, ?_, ?_, ?_, hc.skip_nonneg⟩,
      fun hf => modeReset_ok _ (by rw [hc.force]; exact hf)⟩
    · show cap1.num_frames = N
      omega
    · show 1 ≤ cap1.pos + 1
      omega
    · show cap1.pos + 1 ≤ cap1.num_frames
      omega
    · show (some cap1.pos ≠ none)
      simp
    · show keysOK N (locSet s.labels ((cap1.pos + 1 : Nat) : Int) "presented" 1)
      exact keysOK_locSet _ _ _ _ _ (by omega) (by omega) hc.keys
    · show getCell (locSet s.labels ((cap1.pos + 1 : Nat) : Int) "presented" 1) 0 "presented"
        = some 0
      rw [getCell_locSet_ne_key _ _ _ _ _ _ (by omega)]
      exact hc.row0
  · rw [grabCore_read_fail s cap1 hlt hc.frame_some] at ht
    simp only [Except.ok.injEq] at ht
    subst ht
    refine ⟨⟨?_, hc.force, ?_, hp, rfl, hc.frame_some, hc.keys, hc.row0, hc.skip_nonneg⟩,
      fun hf => modeReset_ok _ (by rw [hc.force]; exact hf)⟩
    · show cap1.num_frames = N
      omega
    · show 1 ≤ cap1.pos
      omega

theorem Inv_grabNext (N : Nat) (FM : Option Int) (s : LM) (hc : CoreInv N FM s) (t : LM)
    (ht : grabNext s = .ok t) : Inv N FM t := by
  unfold grabNext at ht
  rw [skipReads_min _ _ hc.pos_le] at ht
  exact Inv_grabCore N FM s
    ⟨s.cap.num_frames, min (s.cap.pos + s.frame_skip.toNat) s.cap.num_frames⟩
    hc rfl (min_le_right _ _) t ht

theorem Inv_grabRel_back (N : Nat) (FM : Option Int) (s : LM) (r : Int) (hr : r ≤ 0)
    (hc : CoreInv N FM s) (t : LM)
    (ht : grabRel s r = .ok t) : Inv N FM t := by
  unfold grabRel at ht
  have hle := hc.pos_le
  have hfid : s.frame_id.getD 0 = ((s.cap.pos : Nat) : Int) := by rw [hc.fid]; rfl
  rw [hfid] at ht
  refine Inv_grabCore N FM s (s.cap.setPos (max 0 (((s.cap.pos : Nat) : Int) + r))) hc rfl
    ?_ t ht
  show (max 0 (((s.cap.pos : Nat) : Int) + r)).toNat ≤ s.cap.num_frames
  omega

theorem Inv_process_key (N : Nat) (FM : Option Int) (s : LM) (k : Int)
    (hInv : Inv N FM s) (t : LM)
    (ht : process_key s k = .ok t) : Inv N FM t := by
  obtain ⟨hc, hmode⟩ := hInv
  have hcopy : CoreInv N FM { s with pressed_key := k } :=
    ⟨hc.num, hc.force, hc.pos_ge, hc.pos_le, hc.fid, hc.frame_some, hc.keys, hc.row0,
      hc.skip_nonneg⟩
  unfold process_key at ht
  by_cases hneg : k < 0
  · rw [if_pos hneg] at ht
    simp only [Except.ok.injEq] at ht
    subst ht
    exact ⟨hc, hmode⟩
  · rw [if_neg hneg] at ht
    by_cases hq : k = 27 ∨ k = 113
    · rw [if_pos hq] at ht
      simp only [Except.ok.injEq] at ht
      subst ht
      exact ⟨⟨hcopy.num, hcopy.force, hcopy.pos_ge, hcopy.pos_le, hcopy.fid,
        hcopy.frame_some, hcopy.keys, hcopy.row0, hcopy.skip_nonneg⟩, hmode⟩
    · rw [if_neg hq] at ht
      by_cases h46 : k = 46
      · rw [if_pos h46] at ht
        exact Inv_grabNext N FM { s with pressed_key := k } hcopy t ht
      · rw [if_neg h46] at ht
        by_cases h44 : k = 44
        · rw [if_pos h44] at ht
          exact Inv_grabRel_back N FM { s with pressed_key := k } (-s.frame_skip - 2)
            (by have := hc.skip_nonneg; omega) hcopy t ht
        · rw [if_neg h44] at ht
          simp only [Except.ok.injEq] at ht
          subst ht
          exact ⟨hcopy, hmode⟩

theorem Inv_click (N : Nat) (FM : Option Int) (s : LM) (x y : Int)
    (hInv : Inv N FM s) (t : LM)
    (ht : click s x y = .ok t) : Inv N FM t := by
  obtain ⟨hc, hmode⟩ := hInv
  cases hm : pyIdx MODES s.mode with
  | none => simp [click, hm] at ht
  | some m =>
      rw [click_eq s x y m hm] at ht
      by_cases hcond : (MODES.length : Int) ≤ s.mode + 1 ∨ s.force_mode ≠ none
      · rw [if_pos hcond] at ht
        exact Inv_grabNext N FM _ (CoreInv_clickState N FM s x y m hc) t ht
      · rw [if_neg hcond] at ht
        simp only [Except.ok.injEq] at ht
        subst ht
        push_neg at hcond
        obtain ⟨hlen, hforce⟩ := hcond
        refine ⟨CoreInv_clickState N FM s x y m hc, fun _ => ?_⟩
        have hmode4 : 0 ≤ s.mode ∧ s.mode < 4 := by
          apply hmode
          rw [hc.force] at hforce
          rw [hforce]
          trivial
        have hl : (MODES.length : Int) = 4 := rfl
        rw [hl] at hlen
        constructor
        · show 0 ≤ s.mode + 1
          omega
        · show s.mode + 1 < 4
          omega

theorem Inv_step (N : Nat) (FM : Option Int) (s : LM) (e : Ev)
    (hInv : Inv N FM s) (t : LM) (ht : step s e = .ok t) :
    Inv N FM t := by
  cases e with
  | key k =>
      rw [step_key] at ht
      by_cases ha : s.alive
      · rw [if_pos ha] at ht
        exact Inv_process_key N FM s k hInv t ht
      · rw [if_neg ha] at ht
        simp only [Except.ok.injEq] at ht
        subst ht
        exact hInv
  | click x y =>
      rw [step_click] at ht
      by_cases ha : s.alive
      · rw [if_pos ha] at ht
        exact Inv_click N FM s x y hInv t ht
      · rw [if_neg ha] at ht
        simp only [Except.ok.injEq] at ht
        subst ht
        exact hInv

theorem Inv_run (N : Nat) (FM : Option Int) (evs : List Ev) (s : LM)
    (hInv : Inv N FM s) (t : LM)
    (ht : run s evs = .ok t) : Inv N FM t := by
  induction evs generalizing s with
  | nil =>
      rw [run_nil] at ht
      simp only [Except.ok.injEq] at ht
      subst ht
      exact hInv
  | cons e es ih =>
      cases hstep : step s e with
      | ok u =>
          rw [run_cons_ok s u e es hstep] at ht
          exact ih u (Inv_step N FM s e hInv u hstep) ht
      | error msg =>
          simp [run, hstep] at ht

theorem Inv_startup (n : Nat) (sk : Int) (fm : Option Int) (hsk : 0 ≤ sk)
    (s0 : LM) (h : startupLM n sk fm = .ok s0) : Inv n fm s0 := by
  unfold startupLM grabAbs at h
  by_cases hn : 0 < n
  · rw [grabCore_read_ok _ _ (by show (max 0 0 : Int).toNat < n; simpa using hn)] at h
    simp only [Except.ok.injEq] at h
    subst h
    refine ⟨⟨rfl, rfl, ?_, ?_, rfl, ?_, ?_, ?_, hsk⟩, fun hf => modeReset_ok _ hf⟩
    · show 1 ≤ (max 0 0 : Int).toNat + 1
      omega
    · show (max 0 0 : Int).toNat + 1 ≤ n
      omega
    · show some ((max 0 0 : Int).toNat) ≠ none
      simp
    · show keysOK n
        (locSet (initLabels n) (((max 0 0 : Int).toNat + 1 : Nat) : Int) "presented" 1)
      exact keysOK_locSet _ _ _ _ _ (by omega) (by omega) (Or.inl (initLabels_keys n))
    · show getCell
        (locSet (initLabels n) (((max 0 0 : Int).toNat + 1 : Nat) : Int) "presented" 1)
        0 "presented" = some 0
      rw [getCell_locSet_ne_key _ _ _ _ _ _ (by omega)]
      rw [getCell_initLabels n 0 "presented" (by omega) (by omega)]
      rfl
  · rw [grabCore_read_fail_none _ _ (by show ¬ (max 0 0 : Int).toNat < n; omega) rfl] at h
    cases h

/-- A CSV file at the value level: a header row of column names and data
rows of nullable integer cells, one cell per header entry. -/
structure CSV where
  header : List String
  rows : List (List (Option Int))
deriving DecidableEq, Repr

/-- The cells of a row in the fixed `COLUMNS` order, as written by
`to_csv`. -/
def Row.toCells (r : Row) : List (Option Int) :=
  [r.presented, r.label, r.HAx, r.HAy, r.HPx, r.HPy, r.VAx, r.VAy, r.VPx, r.VPy]

/-- `labels.to_csv(path, index_label='frame')`: the frame index becomes an
explicit key column named `frame`, followed by the value columns; empty
cells for null values. -/
def to_csv (L : Labels) : CSV :=
  { header := "frame" :: COLUMNS,
    rows := L.map (fun p => some p.1 :: p.2.toCells) }

/-- A table as loaded back by pandas: named value columns, and rows carrying
the parsed index cell and the remaining cells. -/
structure LoadedTable where
  cols : List String
  rows : List (Option Int × List (Option Int))
deriving DecidableEq, Repr

/-- `pd.read_csv(path, index_col='frame')`, per pandas semantics: setting
the index fails (ValueError) iff the named column is absent from the
stored header; no other schema validation is performed.  On success the
`frame` column becomes the row index and the remaining columns keep their
stored names. -/
def read_csv (csv : CSV) : Except String LoadedTable :=
  if "frame" ∈ csv.header then
    .ok { cols := csv.header.eraseIdx (csv.header.indexOf "frame"),
          rows := csv.rows.map (fun r =>
            ((r.get? (csv.header.indexOf "frame")).join,
             r.eraseIdx (csv.header.indexOf "frame"))) }
  else .error "ParseError"

/-- `loaded.loc[k, c]` on a loaded table: the cell of column `c` in the
first row indexed `k`. -/
def getLoaded (T : LoadedTable) (k : Int) (c : String) : Option Int :=
  match T.rows.find? (fun p => p.1 = some k) with
  | some p => (p.2.get? (T.cols.indexOf c)).join
  | none => none

theorem read_csv_to_csv (L : Labels) :
    read_csv (to_csv L) =
      .ok { cols := COLUMNS,
            rows := L.map (fun p => (some p.1, p.2.toCells)) } := by
  unfold read_csv to_csv
  rw [if_pos (by simp)]
  rw [show List.indexOf "frame" ("frame" :: COLUMNS) = 0 from rfl]
  rw [List.map_map]
  rfl

theorem find?_map_keys (L : Labels) (k : Int) :
    (L.map (fun p => (some p.1, p.2.toCells))).find? (fun p => p.1 = some k) =
      (L.find? (fun p => p.1 = k)).map (fun p => (some p.1, p.2.toCells)) := by
  induction L with
  | nil => rfl
  | cons p t ih =>
      obtain ⟨k0, r⟩ := p
      by_cases hk : k0 = k
      · subst hk
        simp [List.find?]
      · simp only [List.map_cons]
        rw [List.find?_cons_of_neg _ (by simp [hk]), List.find?_cons_of_neg _ (by simp [hk])]
        exact ih

theorem getCell_eq_find? (L : Labels) (k : Int) (c : String) :
    getCell L k c = ((L.find? (fun p => p.1 = k)).map (fun p => p.2.getCol c)).join := by
  induction L with
  | nil => rfl
  | cons p t ih =>
      obtain ⟨k0, r⟩ := p
      by_cases hk : k0 = k
      · subst hk
        simp [getCell, List.find?]
      · rw [List.find?_cons_of_neg _ (by simp [hk])]
        simp only [getCell, if_neg hk]
        exact ih

theorem toCells_get_col (r : Row) (c : String) (hc : c ∈ COLUMNS) :
    ((r.toCells.get? (COLUMNS.indexOf c)).join) = r.getCol c := by
  simp only [COLUMNS, List.mem_cons, List.not_mem_nil, or_false] at hc
  rcases hc with rfl | rfl | rfl | rfl | rfl | rfl | rfl | rfl | rfl | rfl <;> rfl

theorem getLoaded_to_csv (L : Labels) (k : Int) (c : String) (hc : c ∈ COLUMNS) :
    getLoaded { cols := COLUMNS, rows := L.map (fun p => (some p.1, p.2.toCells)) } k c =
      getCell L k c := by
  unfold getLoaded
  rw [find?_map_keys, getCell_eq_find?]
  cases hf : L.find? (fun p => p.1 = k) with
  | none => rfl
  | some p => exact toCells_get_col p.2 c hc


theorem modeReset_some (M : Int) : modeReset (some M) = M := by
  by_cases hM : M = 0 <;> simp [modeReset, hM]

theorem step_click_mid (s : LM) (x y : Int) (m : String) (halive : s.alive = true)
    (hm : pyIdx MODES s.mode = some m)
    (hforce : s.force_mode = none) (hlt : s.mode + 1 < 4) :
    step s (.click x y) = .ok (clickState s x y m) := by
  rw [step_click, if_pos halive, click_eq s x y m hm]
  rw [if_neg ?hc]
  case hc =>
    refine not_or.mpr ⟨?_, ?_⟩
    · have hl : (MODES.length : Int) = 4 := rfl
      rw [hl]
      omega
    · rw [hforce]
      simp

theorem step_click_grab (s : LM) (x y : Int) (m : String) (halive : s.alive = true)
    (hm : pyIdx MODES s.mode = some m)
    (hcond : (4 : Int) ≤ s.mode + 1 ∨ s.force_mode ≠ none) :
    step s (.click x y) = grabNext (clickState s x y m) := by
  rw [step_click, if_pos halive, click_eq s x y m hm]
  rw [if_pos (by have hl : (MODES.length : Int) = 4 := rfl; rw [hl]; exact hcond)]

theorem getCell_locSet_same2 (L : Labels) (k : Int) (c : String) (v : Int)
    (hc : c ∈ COLUMNS) : getCell (locSet L k c v) k c = some v := by
  rw [getCell_locSet L k c v k c hc hc]
  simp

theorem getCell_locSet_diffcol (L : Labels) (k : Int) (c : String) (v : Int)
    (k2 : Int) (c2 : String) (hc : c ∈ COLUMNS) (hc2 : c2 ∈ COLUMNS) (hne : ¬ c2 = c) :
    getCell (locSet L k c v) k2 c2 = getCell L k2 c2 := by
  rw [getCell_locSet L k c v k2 c2 hc hc2]
  simp [hne]

theorem idxKeys_length (n : Nat) : (idxKeys n).length = n := by
  simp [idxKeys]

/-- Cell read through an `Except`-wrapped loaded table (`none` on error). -/
def loadedCellOfE (e : Except String LoadedTable) (k : Int) (c : String) : Option Int :=
  match e with
  | .ok T => getLoaded T k c
  | .error _ => none

/-- A small concrete session state: a 3-frame video with skip 2, right
after startup (frame 0 decoded, stream position 1). -/
def exState : LM :=
  { cap := ⟨3, 1⟩,
    frame := some 0,
    frame_id := some 1,
    labels := locSet (initLabels 3) 1 "presented" 1,
    alive := true,
    pressed_key := -1,
    frame_skip := 2,
    mode := 0,
    force_mode := none }

theorem exState_startup : startupLM 3 2 none = .ok exState := by rfl


/-- C5: if the very first frame decode fails the session raises a fatal
error at startup; a later decode failure after a frame has been decoded
raises nothing and leaves the held frame image unchanged. -/
theorem claim_C5 :
    (∀ (sk : Int) (fm : Option Int),
      startupLM 0 sk fm = .error "Frame acquisition failed") ∧
    (∀ (s : LM) (fr : Nat), s.frame = some fr →
      s.cap.pos ≤ s.cap.num_frames →
      s.cap.num_frames ≤ s.cap.pos + s.frame_skip.toNat →
      isOkE (grabNext s) = true ∧ frameOfE (grabNext s) = some fr) := by
  constructor
  · intro sk fm
    unfold startupLM grabAbs
    exact grabCore_read_fail_none _ _ (by show ¬ (max 0 0 : Int).toNat < 0; omega) rfl
  · intro s fr hfr hple heos
    rw [grabNext_eos s heos hple (by rw [hfr]; simp)]
    exact ⟨rfl, hfr⟩

theorem claim_C5_witness :
    startupLM 0 2 none = .error "Frame acquisition failed" ∧
    (isOkE (grabNext exState) = true ∧ frameOfE (grabNext exState) = some 0) :=
  ⟨claim_C5.1 2 none, claim_C5.2 exState 0 rfl (by decide) (by decide)⟩

/-- C7: the "prev" key (`,`, code 44) repositions the stream to
`max(0, frame_id - (frame_skip + 2))` — never below 0 — and then decodes
the next frame from there. -/
theorem claim_C7 (s : LM) (fid : Int) (hfid : s.frame_id = some fid)
    (halive : s.alive = true) :
    0 ≤ max 0 (fid - (s.frame_skip + 2)) ∧
    step s (.key 44) =
      grabCore { s with pressed_key := 44 }
        (s.cap.setPos (max 0 (fid - (s.frame_skip + 2)))) ∧
    ((max 0 (fid - (s.frame_skip + 2))).toNat < s.cap.num_frames →
      frameOfE (step s (.key 44)) = some ((max 0 (fid - (s.frame_skip + 2))).toNat) ∧
      frameIdOfE (step s (.key 44)) =
        some (((max 0 (fid - (s.frame_skip + 2))).toNat + 1 : Nat) : Int)) := by
  have hstep : step s (.key 44) =
      grabCore { s with pressed_key := 44 }
        (s.cap.setPos (max 0 (fid - (s.frame_skip + 2)))) := by
    rw [step_key, if_pos halive]
    unfold process_key
    rw [if_neg (by omega), if_neg (by omega), if_neg (by omega), if_pos rfl]
    unfold grabRel
    dsimp only
    rw [hfid]
    simp only [Option.getD_some]
    have harith : fid + (-s.frame_skip - 2) = fid - (s.frame_skip + 2) := by ring
    rw [harith]
  refine ⟨le_max_left 0 _, hstep, fun hlt => ?_⟩
  rw [hstep]
  rw [grabCore_read_ok _ _ (by exact hlt)]
  exact ⟨rfl, rfl⟩

theorem claim_C7_witness :
    0 ≤ max 0 (1 - (exState.frame_skip + 2)) ∧
    step exState (.key 44) =
      grabCore { exState with pressed_key := 44 }
        (exState.cap.setPos (max 0 (1 - (exState.frame_skip + 2)))) ∧
    ((max 0 (1 - (exState.frame_skip + 2))).toNat < exState.cap.num_frames →
      frameOfE (step exState (.key 44)) =
        some ((max 0 (1 - (exState.frame_skip + 2))).toNat) ∧
      frameIdOfE (step exState (.key 44)) =
        some (((max 0 (1 - (exState.frame_skip + 2))).toNat + 1 : Nat) : Int)) :=
  claim_C7 exState 1 rfl rfl

/-- C10: a successful decode records in `frame_id` the backend position
after the read — one past the 0-based index of the decoded frame — and
marks `presented` there; in particular startup decodes frame 0 and marks
row 1, and row 0's `presented` flag is never set by any session
operation. -/
theorem claim_C10 :
    (∀ (s : LM) (cap1 : Capture), cap1.pos < cap1.num_frames →
      frameOfE (grabCore s cap1) = some cap1.pos ∧
      frameIdOfE (grabCore s cap1) = some ((cap1.pos + 1 : Nat) : Int) ∧
      cellOfE (grabCore s cap1) ((cap1.pos + 1 : Nat) : Int) "presented" = some 1) ∧
    (∀ (n : Nat) (sk : Int) (fm : Option Int) (s0 : LM), startupLM n sk fm = .ok s0 →
      s0.frame = some 0 ∧ getCell s0.labels 1 "presented" = some 1) ∧
    (∀ (n : Nat) (sk : Int) (fm : Option Int) (evs : List Ev) (s0 t : LM),
      0 ≤ sk → startupLM n sk fm = .ok s0 → run s0 evs = .ok t →
      getCell t.labels 0 "presented" = some 0) := by
  refine ⟨?_, ?_, ?_⟩
  · intro s cap1 hlt
    rw [grabCore_read_ok s cap1 hlt]
    refine ⟨rfl, rfl, ?_⟩
    show getCell (locSet s.labels ((cap1.pos + 1 : Nat) : Int) "presented" 1)
      ((cap1.pos + 1 : Nat) : Int) "presented" = some 1
    exact getCell_locSet_same2 _ _ _ _ (by decide)
  · intro n sk fm s0 h
    unfold startupLM grabAbs at h
    by_cases hn : 0 < n
    · rw [grabCore_read_ok _ _ (by show (max 0 0 : Int).toNat < n; simpa using hn)] at h
      simp only [Except.ok.injEq] at h
      subst h
      refine ⟨rfl, ?_⟩
      show getCell (locSet (initLabels n) (((max 0 0 : Int).toNat + 1 : Nat) : Int)
        "presented" 1) 1 "presented" = some 1
      have h1 : (((max 0 0 : Int).toNat + 1 : Nat) : Int) = 1 := rfl
      rw [h1]
      exact getCell_locSet_same2 _ _ _ _ (by decide)
    · rw [grabCore_read_fail_none _ _ (by show ¬ (max 0 0 : Int).toNat < n; omega) rfl] at h
      cases h
  · intro n sk fm evs s0 t hsk h0 ht
    exact ((Inv_run n fm evs s0 (Inv_startup n sk fm hsk s0 h0) t ht).1).row0

theorem claim_C10_witness :
    (frameOfE (grabCore exState ⟨3, 1⟩) = some 1 ∧
     frameIdOfE (grabCore exState ⟨3, 1⟩) = some ((1 + 1 : Nat) : Int) ∧
     cellOfE (grabCore exState ⟨3, 1⟩) ((1 + 1 : Nat) : Int) "presented" = some 1) ∧
    (exState.frame = some 0 ∧ getCell exState.labels 1 "presented" = some 1) ∧
    getCell exState.labels 0 "presented" = some 0 :=
  ⟨claim_C10.1 exState ⟨3, 1⟩ (by decide),
   claim_C10.2.1 3 2 none exState exState_startup,
   claim_C10.2.2 3 2 none [] exState exState (by decide) exState_startup rfl⟩


/-- C9: when a decode fails at end of stream while a frame is held, `grab`
still overwrites `frame_id` with the backend position and still resets the
mode cursor, without touching the table; a left-click arriving then records
its coordinates under that frame index, whose `presented` flag (assumed
not yet set, as when the final frame was never successfully decoded)
remains unset. -/
theorem claim_C9 (s : LM) (fr : Nat) (x y : Int)
    (hfr : s.frame = some fr)
    (hple : s.cap.pos ≤ s.cap.num_frames)
    (heos : s.cap.num_frames ≤ s.cap.pos + s.frame_skip.toNat)
    (hforce : s.force_mode = none)
    (hpres : getCell s.labels ((s.cap.num_frames : Nat) : Int) "presented" ≠ some 1) :
    frameIdOfE (grabNext s) = some ((s.cap.num_frames : Nat) : Int) ∧
    modeOfE (grabNext s) = some (modeReset s.force_mode) ∧
    (∀ (k : Int) (c : String), cellOfE (grabNext s) k c = getCell s.labels k c) ∧
    cellOfE ((grabNext s).bind (fun u => click u x y)) ((s.cap.num_frames : Nat) : Int)
      "HAx" = some x ∧
    cellOfE ((grabNext s).bind (fun u => click u x y)) ((s.cap.num_frames : Nat) : Int)
      "HAy" = some y ∧
    cellOfE ((grabNext s).bind (fun u => click u x y)) ((s.cap.num_frames : Nat) : Int)
      "presented" ≠ some 1 := by
  have hfn : s.frame ≠ none := by rw [hfr]; simp
  have hg := grabNext_eos s heos hple hfn
  rw [hg]
  refine ⟨rfl, rfl, fun k c => rfl, ?_⟩
  have hbind : (Except.ok { s with
        cap := (⟨s.cap.num_frames, s.cap.num_frames⟩ : Capture),
        frame_id := some ((s.cap.num_frames : Nat) : Int),
        mode := modeReset s.force_mode } : Except String LM).bind (fun u => click u x y) =
      click { s with
        cap := (⟨s.cap.num_frames, s.cap.num_frames⟩ : Capture),
        frame_id := some ((s.cap.num_frames : Nat) : Int),
        mode := modeReset s.force_mode } x y := rfl
  rw [hbind]
  have hmE : pyIdx MODES (modeReset s.force_mode) = some "HA" := by
    rw [hforce]
    rfl
  rw [click_eq _ x y "HA" hmE]
  have hcondE : ¬ ((MODES.length : Int) ≤ modeReset s.force_mode + 1 ∨
      s.force_mode ≠ none) := by
    refine not_or.mpr ⟨?_, ?_⟩
    · rw [hforce]
      decide
    · rw [hforce]
      simp
  rw [if_neg hcondE]
  show getCell (locSet (locSet s.labels _ "HAx" x) _ "HAy" y) _ "HAx" = some x ∧
    getCell (locSet (locSet s.labels _ "HAx" x) _ "HAy" y) _ "HAy" = some y ∧
    getCell (locSet (locSet s.labels _ "HAx" x) _ "HAy" y) _ "presented" ≠ some 1
  refine ⟨?_, ?_, ?_⟩
  · rw [getCell_locSet_diffcol _ _ _ _ _ _ (by decide) (by decide) (by decide)]
    exact getCell_locSet_same2 _ _ _ _ (by decide)
  · exact getCell_locSet_same2 _ _ _ _ (by decide)
  · rw [getCell_locSet_diffcol _ _ _ _ _ _ (by decide) (by decide) (by decide)]
    rw [getCell_locSet_diffcol _ _ _ _ _ _ (by decide) (by decide) (by decide)]
    exact hpres

theorem claim_C9_witness :
    frameIdOfE (grabNext exState) = some ((3 : Nat) : Int) ∧
    modeOfE (grabNext exState) = some (modeReset exState.force_mode) ∧
    (∀ (k : Int) (c : String), cellOfE (grabNext exState) k c = getCell exState.labels k c) ∧
    cellOfE ((grabNext exState).bind (fun u => click u 7 9)) ((3 : Nat) : Int)
      "HAx" = some 7 ∧
    cellOfE ((grabNext exState).bind (fun u => click u 7 9)) ((3 : Nat) : Int)
      "HAy" = some 9 ∧
    cellOfE ((grabNext exState).bind (fun u => click u 7 9)) ((3 : Nat) : Int)
      "presented" ≠ some 1 :=
  claim_C9 exState 0 7 9 rfl (by decide) (by decide) rfl (by decide)


theorem run_append (s : LM) (as bs : List Ev) :
    run s (as ++ bs) = (run s as).bind (fun t => run t bs) := by
  induction as generalizing s with
  | nil => rfl
  | cons e es ih =>
      cases hstep : step s e with
      | ok u =>
          rw [List.cons_append, run_cons_ok _ _ _ _ hstep, ih u, run_cons_ok _ _ _ _ hstep]
      | error m =>
          simp [run, hstep, Except.bind]

/-- The session state after a full four-click mode cycle starting at mode 0
with no forced mode: all four mode coordinates written on the current
frame, then an auto-advance grab. -/
def fourClickState (s : LM) (x1 y1 x2 y2 x3 y3 x4 y4 : Int) : LM :=
  advState (clickState (clickState (clickState (clickState s x1 y1 "HA") x2 y2 "HP")
    x3 y3 "VA") x4 y4 "VP")

/-- The state after a fifth click following a full cycle: the first mode of
the advanced frame is written. -/
def fiveClickState (s : LM) (x1 y1 x2 y2 x3 y3 x4 y4 x5 y5 : Int) : LM :=
  clickState (fourClickState s x1 y1 x2 y2 x3 y3 x4 y4) x5 y5 "HA"

theorem run_fourClicks (s : LM) (x1 y1 x2 y2 x3 y3 x4 y4 : Int)
    (halive : s.alive = true) (hforce : s.force_mode = none) (hmode : s.mode = 0)
    (hroom : s.cap.pos + s.frame_skip.toNat < s.cap.num_frames) :
    run s [Ev.click x1 y1, Ev.click x2 y2, Ev.click x3 y3, Ev.click x4 y4] =
      .ok (fourClickState s x1 y1 x2 y2 x3 y3 x4 y4) := by
  have e1 : step s (.click x1 y1) = .ok (clickState s x1 y1 "HA") := by
    refine step_click_mid s x1 y1 "HA" halive ?_ hforce ?_
    · rw [hmode]
      rfl
    · rw [hmode]
      norm_num
  have e2 : step (clickState s x1 y1 "HA") (.click x2 y2) =
      .ok (clickState (clickState s x1 y1 "HA") x2 y2 "HP") := by
    refine step_click_mid (clickState s x1 y1 "HA") x2 y2 "HP" halive ?_ hforce ?_
    · show pyIdx MODES (s.mode + 1) = some "HP"
      rw [hmode]
      rfl
    · show s.mode + 1 + 1 < 4
      rw [hmode]
      norm_num
  have e3 : step (clickState (clickState s x1 y1 "HA") x2 y2 "HP") (.click x3 y3) =
      .ok (clickState (clickState (clickState s x1 y1 "HA") x2 y2 "HP") x3 y3 "VA") := by
    refine step_click_mid _ x3 y3 "VA" halive ?_ hforce ?_
    · show pyIdx MODES (s.mode + 1 + 1) = some "VA"
      rw [hmode]
      rfl
    · show s.mode + 1 + 1 + 1 < 4
      rw [hmode]
      norm_num
  have e4 : step (clickState (clickState (clickState s x1 y1 "HA") x2 y2 "HP") x3 y3 "VA")
      (.click x4 y4) = .ok (fourClickState s x1 y1 x2 y2 x3 y3 x4 y4) := by
    have e4a := step_click_grab
      (clickState (clickState (clickState s x1 y1 "HA") x2 y2 "HP") x3 y3 "VA")
      x4 y4 "VP" halive
      (by
        show pyIdx MODES (s.mode + 1 + 1 + 1) = some "VP"
        rw [hmode]
        rfl)
      (Or.inl (by
        show (4 : Int) ≤ s.mode + 1 + 1 + 1 + 1
        rw [hmode]
        norm_num))
    rw [e4a]
    exact grabNext_ok _ (by exact hroom)
  rw [run_cons_ok _ _ _ _ e1, run_cons_ok _ _ _ _ e2, run_cons_ok _ _ _ _ e3,
    run_cons_ok _ _ _ _ e4, run_nil]

theorem run_fiveClicks (s : LM) (x1 y1 x2 y2 x3 y3 x4 y4 x5 y5 : Int)
    (halive : s.alive = true) (hforce : s.force_mode = none) (hmode : s.mode = 0)
    (hroom : s.cap.pos + s.frame_skip.toNat < s.cap.num_frames) :
    run s [Ev.click x1 y1, Ev.click x2 y2, Ev.click x3 y3, Ev.click x4 y4, Ev.click x5 y5] =
      .ok (fiveClickState s x1 y1 x2 y2 x3 y3 x4 y4 x5 y5) := by
  have h4 := run_fourClicks s x1 y1 x2 y2 x3 y3 x4 y4 halive hforce hmode hroom
  have hsplit : [Ev.click x1 y1, Ev.click x2 y2, Ev.click x3 y3, Ev.click x4 y4,
      Ev.click x5 y5] =
      [Ev.click x1 y1, Ev.click x2 y2, Ev.click x3 y3, Ev.click x4 y4] ++
        [Ev.click x5 y5] := rfl
  rw [hsplit, run_append, h4]
  have e5 : step (fourClickState s x1 y1 x2 y2 x3 y3 x4 y4) (.click x5 y5) =
      .ok (fiveClickState s x1 y1 x2 y2 x3 y3 x4 y4 x5 y5) := by
    refine step_click_mid (fourClickState s x1 y1 x2 y2 x3 y3 x4 y4) x5 y5 "HA"
      halive ?_ hforce ?_
    · show pyIdx MODES (modeReset s.force_mode) = some "HA"
      rw [hforce]
      rfl
    · show modeReset s.force_mode + 1 < 4
      rw [hforce]
      decide
  show run (fourClickState s x1 y1 x2 y2 x3 y3 x4 y4) [Ev.click x5 y5] =
    .ok (fiveClickState s x1 y1 x2 y2 x3 y3 x4 y4 x5 y5)
  rw [run_cons_ok _ _ _ _ e5, run_nil]

/-- A concrete 10-frame session state right after startup, used to witness
the click-cycle claims. -/
def exStateBig : LM :=
  { cap := ⟨10, 1⟩,
    frame := some 0,
    frame_id := some 1,
    labels := locSet (initLabels 10) 1 "presented" 1,
    alive := true,
    pressed_key := -1,
    frame_skip := 2,
    mode := 0,
    force_mode := none }

/-- C1: with no forced mode, starting at the first mode, four consecutive
clicks write the four modes of the current frame in the order HA, HP, VA,
VP, the session then advances to a strictly later frame with the mode
cursor back at the first mode, and a fifth click writes the first mode of
that advanced frame. -/
theorem claim_C1 (s : LM) (x1 y1 x2 y2 x3 y3 x4 y4 x5 y5 : Int)
    (halive : s.alive = true) (hforce : s.force_mode = none) (hmode : s.mode = 0)
    (hfid : s.frame_id = some ((s.cap.pos : Nat) : Int))
    (hroom : s.cap.pos + s.frame_skip.toNat < s.cap.num_frames) :
    cellOfE (run s [Ev.click x1 y1, Ev.click x2 y2, Ev.click x3 y3, Ev.click x4 y4,
        Ev.click x5 y5]) ((s.cap.pos : Nat) : Int) "HAx" = some x1 ∧
    cellOfE (run s [Ev.click x1 y1, Ev.click x2 y2, Ev.click x3 y3, Ev.click x4 y4,
        Ev.click x5 y5]) ((s.cap.pos : Nat) : Int) "HAy" = some y1 ∧
    cellOfE (run s [Ev.click x1 y1, Ev.click x2 y2, Ev.click x3 y3, Ev.click x4 y4,
        Ev.click x5 y5]) ((s.cap.pos : Nat) : Int) "HPx" = some x2 ∧
    cellOfE (run s [Ev.click x1 y1, Ev.click x2 y2, Ev.click x3 y3, Ev.click x4 y4,
        Ev.click x5 y5]) ((s.cap.pos : Nat) : Int) "HPy" = some y2 ∧
    cellOfE (run s [Ev.click x1 y1, Ev.click x2 y2, Ev.click x3 y3, Ev.click x4 y4,
        Ev.click x5 y5]) ((s.cap.pos : Nat) : Int) "VAx" = some x3 ∧
    cellOfE (run s [Ev.click x1 y1, Ev.click x2 y2, Ev.click x3 y3, Ev.click x4 y4,
        Ev.click x5 y5]) ((s.cap.pos : Nat) : Int) "VAy" = some y3 ∧
    cellOfE (run s [Ev.click x1 y1, Ev.click x2 y2, Ev.click x3 y3, Ev.click x4 y4,
        Ev.click x5 y5]) ((s.cap.pos : Nat) : Int) "VPx" = some x4 ∧
    cellOfE (run s [Ev.click x1 y1, Ev.click x2 y2, Ev.click x3 y3, Ev.click x4 y4,
        Ev.click x5 y5]) ((s.cap.pos : Nat) : Int) "VPy" = some y4 ∧
    frameIdOfE (run s [Ev.click x1 y1, Ev.click x2 y2, Ev.click x3 y3, Ev.click x4 y4]) =
      some ((s.cap.pos + s.frame_skip.toNat + 1 : Nat) : Int) ∧
    modeOfE (run s [Ev.click x1 y1, Ev.click x2 y2, Ev.click x3 y3, Ev.click x4 y4]) =
      some 0 ∧
    ((s.cap.pos : Nat) : Int) < ((s.cap.pos + s.frame_skip.toNat + 1 : Nat) : Int) ∧
    cellOfE (run s [Ev.click x1 y1, Ev.click x2 y2, Ev.click x3 y3, Ev.click x4 y4,
        Ev.click x5 y5]) ((s.cap.pos + s.frame_skip.toNat + 1 : Nat) : Int) "HAx"
      = some x5 ∧
    cellOfE (run s [Ev.click x1 y1, Ev.click x2 y2, Ev.click x3 y3, Ev.click x4 y4,
        Ev.click x5 y5]) ((s.cap.pos + s.frame_skip.toNat + 1 : Nat) : Int) "HAy"
      = some y5 ∧
    modeOfE (run s [Ev.click x1 y1, Ev.click x2 y2, Ev.click x3 y3, Ev.click x4 y4,
        Ev.click x5 y5]) = some 1 := by
  have h4 := run_fourClicks s x1 y1 x2 y2 x3 y3 x4 y4 halive hforce hmode hroom
  have h5 := run_fiveClicks s x1 y1 x2 y2 x3 y3 x4 y4 x5 y5 halive hforce hmode hroom
  have hne12 : ¬ ((s.cap.pos : Nat) : Int) =
      ((s.cap.pos + s.frame_skip.toNat + 1 : Nat) : Int) := by omega
  have hne21 : ¬ ((s.cap.pos + s.frame_skip.toNat + 1 : Nat) : Int) =
      ((s.cap.pos : Nat) : Int) := by omega
  have hne12b : ¬ ((s.cap.pos : Int)) = (s.cap.pos : Int) + (s.frame_skip ⊔ 0) + 1 := by
    omega
  have hne21b : ¬ ((s.cap.pos : Int) + (s.frame_skip ⊔ 0) + 1) = (s.cap.pos : Int) := by
    omega
  rw [h4, h5]
  simp only [cellOfE, frameIdOfE, modeOfE, fiveClickState, fourClickState, clickState,
    advState, hfid, Option.getD_some]
  refine ⟨?_, ?_, ?_, ?_, ?_, ?_, ?_, ?_, trivial, ?_, by omega, ?_, ?_, ?_⟩
  · simp [getCell_locSet_same2, getCell_locSet_diffcol, getCell_locSet_ne_key,
      hne12, hne21, hne12b, hne21b, COLUMNS]
  · simp [getCell_locSet_same2, getCell_locSet_diffcol, getCell_locSet_ne_key,
      hne12, hne21, hne12b, hne21b, COLUMNS]
  · simp [getCell_locSet_same2, getCell_locSet_diffcol, getCell_locSet_ne_key,
      hne12, hne21, hne12b, hne21b, COLUMNS]
  · simp [getCell_locSet_same2, getCell_locSet_diffcol, getCell_locSet_ne_key,
      hne12, hne21, hne12b, hne21b, COLUMNS]
  · simp [getCell_locSet_same2, getCell_locSet_diffcol, getCell_locSet_ne_key,
      hne12, hne21, hne12b, hne21b, COLUMNS]
  · simp [getCell_locSet_same2, getCell_locSet_diffcol, getCell_locSet_ne_key,
      hne12, hne21, hne12b, hne21b, COLUMNS]
  · simp [getCell_locSet_same2, getCell_locSet_diffcol, getCell_locSet_ne_key,
      hne12, hne21, hne12b, hne21b, COLUMNS]
  · simp [getCell_locSet_same2, getCell_locSet_diffcol, getCell_locSet_ne_key,
      hne12, hne21, hne12b, hne21b, COLUMNS]
  · rw [hforce]
    rfl
  · simp [getCell_locSet_same2, getCell_locSet_diffcol, getCell_locSet_ne_key,
      hne12, hne21, hne12b, hne21b, COLUMNS]
  · simp [getCell_locSet_same2, getCell_locSet_diffcol, getCell_locSet_ne_key,
      hne12, hne21, hne12b, hne21b, COLUMNS]
  · rw [hforce]
    rfl

theorem claim_C1_witness :
    cellOfE (run exStateBig [Ev.click 10 20, Ev.click 30 40, Ev.click 50 60,
        Ev.click 70 80, Ev.click 90 95]) 1 "HAx" = some 10 ∧
    cellOfE (run exStateBig [Ev.click 10 20, Ev.click 30 40, Ev.click 50 60,
        Ev.click 70 80, Ev.click 90 95]) 1 "HAy" = some 20 ∧
    cellOfE (run exStateBig [Ev.click 10 20, Ev.click 30 40, Ev.click 50 60,
        Ev.click 70 80, Ev.click 90 95]) 1 "HPx" = some 30 ∧
    cellOfE (run exStateBig [Ev.click 10 20, Ev.click 30 40, Ev.click 50 60,
        Ev.click 70 80, Ev.click 90 95]) 1 "HPy" = some 40 ∧
    cellOfE (run exStateBig [Ev.click 10 20, Ev.click 30 40, Ev.click 50 60,
        Ev.click 70 80, Ev.click 90 95]) 1 "VAx" = some 50 ∧
    cellOfE (run exStateBig [Ev.click 10 20, Ev.click 30 40, Ev.click 50 60,
        Ev.click 70 80, Ev.click 90 95]) 1 "VAy" = some 60 ∧
    cellOfE (run exStateBig [Ev.click 10 20, Ev.click 30 40, Ev.click 50 60,
        Ev.click 70 80, Ev.click 90 95]) 1 "VPx" = some 70 ∧
    cellOfE (run exStateBig [Ev.click 10 20, Ev.click 30 40, Ev.click 50 60,
        Ev.click 70 80, Ev.click 90 95]) 1 "VPy" = some 80 ∧
    frameIdOfE (run exStateBig [Ev.click 10 20, Ev.click 30 40, Ev.click 50 60,
        Ev.click 70 80]) = some 4 ∧
    modeOfE (run exStateBig [Ev.click 10 20, Ev.click 30 40, Ev.click 50 60,
        Ev.click 70 80]) = some 0 ∧
    (1 : Int) < 4 ∧
    cellOfE (run exStateBig [Ev.click 10 20, Ev.click 30 40, Ev.click 50 60,
        Ev.click 70 80, Ev.click 90 95]) 4 "HAx" = some 90 ∧
    cellOfE (run exStateBig [Ev.click 10 20, Ev.click 30 40, Ev.click 50 60,
        Ev.click 70 80, Ev.click 90 95]) 4 "HAy" = some 95 ∧
    modeOfE (run exStateBig [Ev.click 10 20, Ev.click 30 40, Ev.click 50 60,
        Ev.click 70 80, Ev.click 90 95]) = some 1 :=
  claim_C1 exStateBig 10 20 30 40 50 60 70 80 90 95 rfl rfl rfl rfl (by decide)

theorem pyIdx_mem (l : List String) (i : Int) (m : String) (h : pyIdx l i = some m) :
    m ∈ l := by
  unfold pyIdx at h
  by_cases h0 : 0 ≤ i
  · rw [if_pos h0] at h
    exact List.get?_mem h
  · rw [if_neg h0] at h
    by_cases h1 : 0 ≤ i + l.length
    · rw [if_pos h1] at h
      exact List.get?_mem h
    · rw [if_neg h1] at h
      cases h

/-- C2: with a forced mode `M`, a left-click writes exactly mode `M`
coordinate columns of the current frame, leaves every other column of that
frame untouched, and triggers a frame advance with the mode cursor back at
`M`. -/
theorem claim_C2 (s : LM) (M : Int) (m : String) (x y : Int)
    (halive : s.alive = true) (hforce : s.force_mode = some M)
    (hm : pyIdx MODES M = some m)
    (hmode : s.mode = M)
    (hfid : s.frame_id = some ((s.cap.pos : Nat) : Int))
    (hroom : s.cap.pos + s.frame_skip.toNat < s.cap.num_frames) :
    cellOfE (step s (.click x y)) ((s.cap.pos : Nat) : Int) (m ++ "x") = some x ∧
    cellOfE (step s (.click x y)) ((s.cap.pos : Nat) : Int) (m ++ "y") = some y ∧
    (∀ c, c ∈ COLUMNS → ¬ c = m ++ "x" → ¬ c = m ++ "y" →
      cellOfE (step s (.click x y)) ((s.cap.pos : Nat) : Int) c =
        getCell s.labels ((s.cap.pos : Nat) : Int) c) ∧
    frameIdOfE (step s (.click x y)) =
      some ((s.cap.pos + s.frame_skip.toNat + 1 : Nat) : Int) ∧
    ((s.cap.pos : Nat) : Int) < ((s.cap.pos + s.frame_skip.toNat + 1 : Nat) : Int) ∧
    modeOfE (step s (.click x y)) = some M := by
  have hmem : m ∈ MODES := pyIdx_mem MODES M m hm
  have hmx : m ++ "x" ∈ COLUMNS := by fin_cases hmem <;> decide
  have hmy : m ++ "y" ∈ COLUMNS := by fin_cases hmem <;> decide
  have hxy : ¬ (m ++ "y") = (m ++ "x") := by fin_cases hmem <;> decide
  have hyx : ¬ (m ++ "x") = (m ++ "y") := by fin_cases hmem <;> decide
  have hstep : step s (.click x y) = .ok (advState (clickState s x y m)) := by
    rw [step_click_grab s x y m halive (by rw [hmode]; exact hm)
      (Or.inr (by rw [hforce]; simp))]
    exact grabNext_ok _ (by exact hroom)
  rw [hstep]
  simp only [cellOfE, frameIdOfE, modeOfE, advState, clickState, hfid, Option.getD_some]
  refine ⟨?_, ?_, ?_, ?_, by omega, ?_⟩
  · rw [getCell_locSet_ne_key _ _ _ _ _ _ (by omega)]
    rw [getCell_locSet_diffcol _ _ _ _ _ _ hmy hmx hyx]
    exact getCell_locSet_same2 _ _ _ _ hmx
  · rw [getCell_locSet_ne_key _ _ _ _ _ _ (by omega)]
    exact getCell_locSet_same2 _ _ _ _ hmy
  · intro c hc hcx hcy
    rw [getCell_locSet_ne_key _ _ _ _ _ _ (by omega)]
    rw [getCell_locSet_diffcol _ _ _ _ _ _ hmy hc hcy]
    rw [getCell_locSet_diffcol _ _ _ _ _ _ hmx hc hcx]
  · trivial
  · show some (modeReset s.force_mode) = some M
    rw [hforce, modeReset_some]

theorem claim_C2_witness :
    cellOfE (step { exStateBig with force_mode := some 2, mode := 2 } (.click 11 22))
      1 ("VA" ++ "x") = some 11 ∧
    cellOfE (step { exStateBig with force_mode := some 2, mode := 2 } (.click 11 22))
      1 ("VA" ++ "y") = some 22 ∧
    (∀ c, c ∈ COLUMNS → ¬ c = "VA" ++ "x" → ¬ c = "VA" ++ "y" →
      cellOfE (step { exStateBig with force_mode := some 2, mode := 2 } (.click 11 22))
        1 c =
        getCell { exStateBig with force_mode := some 2, mode := 2 }.labels 1 c) ∧
    frameIdOfE (step { exStateBig with force_mode := some 2, mode := 2 } (.click 11 22)) =
      some 4 ∧
    (1 : Int) < 4 ∧
    modeOfE (step { exStateBig with force_mode := some 2, mode := 2 } (.click 11 22)) =
      some 2 :=
  claim_C2 { exStateBig with force_mode := some 2, mode := 2 } 2 "VA" 11 22
    rfl rfl rfl rfl rfl (by decide)


/-- C3, counterexample: a session on a 1-frame video starts with a 1-row
table, but the very first grab marks `presented` at the post-read position
1 — a missing row label — so pandas enlargement appends a row and the count
becomes 2 ≠ frame count. -/
theorem claim_C3_counterexample :
    (initLabels 1).length = 1 ∧ rowCountE (startupLM 1 2 none) = 2 :=
  ⟨rfl, rfl⟩

/-- C3, amended: rows are never removed and the keys keep the creation
shape, but one extra row (index frameCount) may be appended by the
off-by-one `presented` mark when the final frame is decoded, so the row
count is frameCount or frameCount + 1. -/
theorem claim_C3_amended (n : Nat) (sk : Int) (fm : Option Int) (evs : List Ev)
    (s0 t : LM) (hsk : 0 ≤ sk)
    (h0 : startupLM n sk fm = .ok s0) (ht : run s0 evs = .ok t) :
    (t.labels.map Prod.fst = idxKeys n ∨ t.labels.map Prod.fst = idxKeys (n + 1)) ∧
    (t.labels.length = n ∨ t.labels.length = n + 1) := by
  have hInv := Inv_run n fm evs s0 (Inv_startup n sk fm hsk s0 h0) t ht
  have hkeys := hInv.1.keys
  unfold keysOK at hkeys
  refine ⟨hkeys, ?_⟩
  rcases hkeys with h | h
  · left
    have h2 := congrArg List.length h
    rw [List.length_map, idxKeys_length] at h2
    exact h2
  · right
    have h2 := congrArg List.length h
    rw [List.length_map, idxKeys_length] at h2
    exact h2

theorem claim_C3_witness :
    ((exState.labels.map Prod.fst = idxKeys 3 ∨
      exState.labels.map Prod.fst = idxKeys (3 + 1)) ∧
     (exState.labels.length = 3 ∨ exState.labels.length = 3 + 1)) :=
  claim_C3_amended 3 2 none [] exState exState (by decide) exState_startup rfl

/-- C8, counterexample: the constructor accepts any integer forced mode;
with `force_mode = 4` the session starts with mode cursor 4, which is not a
valid index into the 4-element mode sequence. -/
theorem claim_C8_counterexample :
    modeOfE (startupLM 5 2 (some 4)) = some 4 ∧ ¬ ((4 : Int) < 4) :=
  ⟨rfl, by decide⟩

/-- C8, amended: when the configured forced mode is absent or itself a
valid index in `[0, 4)`, the mode cursor is a valid index in `[0, 4)` in
every reachable session state. -/
theorem claim_C8_amended (n : Nat) (sk : Int) (fm : Option Int) (evs : List Ev)
    (s0 t : LM) (hfm : forceOK fm) (hsk : 0 ≤ sk)
    (h0 : startupLM n sk fm = .ok s0) (ht : run s0 evs = .ok t) :
    0 ≤ t.mode ∧ t.mode < 4 :=
  (Inv_run n fm evs s0 (Inv_startup n sk fm hsk s0 h0) t ht).2 hfm

/-- The state reached from `exState` by one `.` key press (skip runs into
end of stream, so the held frame stays frame 0 and `frame_id` becomes 3). -/
def exStateAfterDot : LM :=
  { cap := ⟨3, 3⟩,
    frame := some 0,
    frame_id := some 3,
    labels := locSet (initLabels 3) 1 "presented" 1,
    alive := true,
    pressed_key := 46,
    frame_skip := 2,
    mode := 0,
    force_mode := none }

theorem claim_C8_witness : 0 ≤ exStateAfterDot.mode ∧ exStateAfterDot.mode < 4 :=
  claim_C8_amended 3 2 none [Ev.key 46] exState exStateAfterDot trivial (by decide)
    exState_startup rfl

/-- C4: saving the table and loading the saved file preserves every cell:
null cells stay null and populated cells keep their exact integers. -/
theorem claim_C4 (L : Labels) (k : Int) (c : String) (hc : c ∈ COLUMNS) :
    loadedCellOfE (read_csv (to_csv L)) k c = getCell L k c := by
  rw [read_csv_to_csv]
  exact getLoaded_to_csv L k c hc

theorem claim_C4_witness :
    loadedCellOfE (read_csv (to_csv exState.labels)) 1 "HAx" =
      getCell exState.labels 1 "HAx" :=
  claim_C4 exState.labels 1 "HAx" (by decide)

/-- C6, counterexample: a stored file whose columns do not match the
expected set still loads without error as long as the `frame` key column is
present — `read_csv(..., index_col='frame')` performs no schema check. -/
theorem claim_C6_counterexample :
    (CSV.mk ["frame", "foo"] []).header ≠ "frame" :: COLUMNS ∧
    read_csv (CSV.mk ["frame", "foo"] []) = .ok (LoadedTable.mk ["foo"] []) :=
  ⟨by decide, rfl⟩

/-- C6, amended: loading a resume file fails at load time iff the `frame`
index column is absent from the stored header; the remaining columns are
not validated. -/
theorem claim_C6_amended (csv : CSV) :
    read_csv csv = .error "ParseError" ↔ "frame" ∉ csv.header := by
  unfold read_csv
  by_cases h : "frame" ∈ csv.header
  · rw [if_pos h]
    simp [h]
  · rw [if_neg h]
    simp [h]

end LabelMakerModel
